import Mathlib

/-!
Verification of the safety-gating and reliability layer of the Jarvis
voice-assistant orchestrator: the whitelist store (`whitelist_manager.py`),
the confirmation gate and action executor (`action_executor.py`), and the
retry/fallback machinery (`error_recovery.py`), shallowly embedded in Lean.

Modelling conventions:
  * A Python exception is an `Exn` (its message string); code that may raise
    returns `Except`; a raise that escapes a function carries the state at
    the moment of the raise.
  * Filesystem paths are lists of components; `Path.expanduser`/`resolve`
    are OS services and enter as function parameters (`parsePath`,
    `resolve`).
  * Delays are rationals: the source computes `min (delay * factor) cap`
    exactly, so `ℚ` mirrors the arithmetic structure of the float code.
  * External services (subprocess, HTTP stack, HTML extraction) enter as
    oracle parameters describing what the outside world returns.
-/

/-- The single-quote character, used in messages the source builds
with quoted interpolation. -/
def sqt : String := String.singleton (Char.ofNat 39)

/-- A raised Python exception, identified by its message. -/
abbrev Exn := String

/-- Python's `c in s` membership test on a string, over its characters. -/
def pyContainsChar (s : String) (c : Char) : Bool := s.data.contains c

/-- Worker for `pySplitWhitespace`: accumulates the current word reversed. -/
def splitWsAux : List Char → List Char → List String
  | [], acc => if acc.isEmpty then [] else [String.mk acc.reverse]
  | c :: cs, acc =>
    if c.isWhitespace then
      if acc.isEmpty then splitWsAux cs []
      else String.mk acc.reverse :: splitWsAux cs []
    else splitWsAux cs (c :: acc)

/-- Python `str.split()` with no separator: split on whitespace runs,
dropping empty pieces. -/
def pySplitWhitespace (s : String) : List String := splitWsAux s.data []

/-- Python `str.startswith(pre)`. -/
def pyStartsWith (s pre : String) : Bool := pre.data.isPrefixOf s.data

/-- Confirmation handler contract: `(action_description, candidate_key) ->
(execute, remember)`; as Python code it may also raise. -/
abbrev Handler := String → String → Except Exn (Bool × Bool)

/-! ## Whitelist store (`whitelist_manager.py`) -/

/-- The in-memory whitelist: category -> set of item keys, modelled as a
list of (category, item) pairs with set semantics. -/
structure Whitelist where
  entries : List (String × String)
deriving DecidableEq, Repr

namespace Whitelist

/-- `WhitelistManager.is_whitelisted`: `item in self.whitelist.get(category, set())`. -/
def isWhitelisted (wl : Whitelist) (category item : String) : Bool :=
  wl.entries.contains (category, item)

/-- `WhitelistManager.add_to_whitelist`: inserts `item` into the category set
(idempotent, set semantics). -/
def add (wl : Whitelist) (category item : String) : Whitelist :=
  if wl.isWhitelisted category item then wl else ⟨(category, item) :: wl.entries⟩

theorem isWhitelisted_add_self (wl : Whitelist) (c i : String) :
    (wl.add c i).isWhitelisted c i = true := by
  simp only [add, isWhitelisted]
  by_cases h : (c, i) ∈ wl.entries <;> simp [h]

end Whitelist

/-! ## Confirmation gate (`ActionExecutor._request_confirmation`) -/

/-- Result of `_request_confirmation`: the decision `(execute, remember)`
paired with whether the confirmation callback was actually invoked. -/
abbrev ConfirmResult := (Bool × Bool) × Bool

/-- `ActionExecutor._request_confirmation(category, action_description, item,
force)`.  Whitelist auto-approval unless forced; otherwise the callback
decides; with no callback, deny. The second component records whether the
callback ran; a raise inside the callback propagates. -/
def requestConfirmation (wl : Whitelist) (cb : Option Handler)
    (category _actionDescription item : String) (force : Bool) :
    Except Exn ConfirmResult :=
  if !force && wl.isWhitelisted category item then
    Except.ok ((true, false), false)
  else
    match cb with
    | some h => (h _actionDescription item).map (fun d => (d, true))
    | none => Except.ok ((false, false), false)

/-! ## Filesystem model and path validation -/

/-- An absolute filesystem path, as its list of components. -/
abbrev FPath := List String

/-- Rendering of an absolute path, as Python shows a `PosixPath`. -/
def renderPath (p : FPath) : String := "/" ++ String.intercalate "/" p

/-- `Path.parent`. -/
def parentPath (p : FPath) : FPath := p.dropLast

/-- A filesystem snapshot: regular files (path, content) and directories. -/
structure FS where
  files : List (FPath × String)
  dirs : List FPath
deriving DecidableEq, Repr

namespace FS

/-- `Path.is_file()`. -/
def isFile (fs : FS) (p : FPath) : Bool := fs.files.any fun e => e.1 == p

/-- `Path.is_dir()`. -/
def isDir (fs : FS) (p : FPath) : Bool := fs.dirs.contains p

/-- `Path.exists()`. -/
def pathExists (fs : FS) (p : FPath) : Bool := fs.isFile p || fs.isDir p

/-- `Path.read_text()` on an existing file. -/
def readText (fs : FS) (p : FPath) : String :=
  (((fs.files.find? fun e => e.1 == p).map Prod.snd).getD "")

/-- `Path.write_text(c)`: create or overwrite the file at `p`. -/
def writeText (fs : FS) (p : FPath) (c : String) : FS :=
  { fs with files := (p, c) :: (fs.files.filter fun e => !(e.1 == p)) }

/-- `Path.unlink()`: remove the regular file at `p`. -/
def unlink (fs : FS) (p : FPath) : FS :=
  { fs with files := fs.files.filter fun e => !(e.1 == p) }

/-- `Path.mkdir(parents=True, exist_ok=True)`: record `p` and every missing
ancestor as a directory. -/
def mkdirParents (fs : FS) (p : FPath) : FS :=
  let ancestors := (List.range p.length).map fun k => p.take (k + 1)
  { fs with dirs := ancestors.foldl (fun ds q => if ds.contains q then ds else q :: ds) fs.dirs }

/-- Names of the direct children of `p` (`Path.iterdir()`). -/
def childNames (fs : FS) (p : FPath) : List String :=
  (((fs.files.map Prod.fst) ++ fs.dirs).filterMap fun q =>
    if q.length = p.length + 1 ∧ p.isPrefixOf q then q.getLast? else none).dedup

end FS

/-- Insertion into a `≤`-sorted list of strings. -/
def insertSorted (x : String) : List String → List String
  | [] => [x]
  | y :: ys => if x ≤ y then x :: y :: ys else y :: insertSorted x ys

/-- `sorted()` over strings (`items.sort()` sorts paths by their text). -/
def sortStrings (l : List String) : List String := l.foldr insertSorted []

/-- `ActionExecutor._is_path_allowed`: the resolved path must sit under the
resolved form of one of the allowed directories (`Path.relative_to`
succeeds exactly when the allowed root is a prefix). -/
def isPathAllowed (resolve : FPath → FPath) (allowedDirs : List FPath) (p : FPath) : Bool :=
  allowedDirs.any fun d => (resolve d).isPrefixOf (resolve p)

/-! ## File operations (`ActionExecutor.execute_file_operation`) -/

/-- Outcome of a completed file operation: the result message, the
filesystem and whitelist afterwards, and whether the confirmation
callback was invoked along the way. -/
structure FileOpOutcome where
  output : String
  fs : FS
  wl : Whitelist
  handlerInvoked : Bool
deriving DecidableEq, Repr

/-- The `try:` block of `execute_file_operation`: dispatch on the operation
name.  In the model the filesystem primitives are total, so the matching
`except` branch is unreachable. -/
def fileOpTryBlock (fs : FS) (wl : Whitelist) (invoked : Bool) (opStr : String)
    (filePath : FPath) (content : Option String) : FileOpOutcome :=
  if opStr == "create_file" then
    let fs1 := (fs.mkdirParents (parentPath filePath)).writeText filePath (content.getD "")
    ⟨"File created: " ++ renderPath filePath, fs1, wl, invoked⟩
  else if opStr == "read_file" then
    if !fs.pathExists filePath then ⟨"Error: File not found: " ++ renderPath filePath, fs, wl, invoked⟩
    else if !fs.isFile filePath then ⟨"Error: Not a file: " ++ renderPath filePath, fs, wl, invoked⟩
    else
      let c := fs.readText filePath
      let c := if 1000 < c.length then c.take 1000 ++ "\n... (truncated)" else c
      ⟨"File content:\n" ++ c, fs, wl, invoked⟩
  else if opStr == "delete_file" then
    if !fs.pathExists filePath then ⟨"Error: Path not found: " ++ renderPath filePath, fs, wl, invoked⟩
    else if fs.isFile filePath then
      ⟨"File deleted: " ++ renderPath filePath, fs.unlink filePath, wl, invoked⟩
    else
      ⟨"Error: Not a file: " ++ renderPath filePath ++ " (use delete_directory for directories)",
        fs, wl, invoked⟩
  else if opStr == "create_directory" then
    ⟨"Directory created: " ++ renderPath filePath, fs.mkdirParents filePath, wl, invoked⟩
  else if opStr == "list_directory" then
    if !fs.pathExists filePath then ⟨"Error: Directory not found: " ++ renderPath filePath, fs, wl, invoked⟩
    else if !fs.isDir filePath then ⟨"Error: Not a directory: " ++ renderPath filePath, fs, wl, invoked⟩
    else
      let names := sortStrings (fs.childNames filePath)
      let fileLines := (names.filter fun n => fs.isFile (filePath ++ [n])).map fun n => "📄 " ++ n
      let dirLines := (names.filter fun n => fs.isDir (filePath ++ [n])).map fun n => "📁 " ++ n
      let allItems := dirLines ++ fileLines
      let allItems := if 50 < allItems.length then allItems.take 50 ++ ["... (truncated)"] else allItems
      ⟨"Contents of " ++ renderPath filePath ++ ":\n" ++ String.intercalate "\n" allItems, fs, wl, invoked⟩
  else ⟨"Error: Unknown operation: " ++ opStr, fs, wl, invoked⟩

/-- `ActionExecutor.execute_file_operation(operation, path, content)`.
`parsePath` models `Path(path).expanduser()` (raising on a missing path
argument, as `Path(None)` does), `resolve` models symlink resolution.
A `None` operation is collapsed to the string it prints as, which is
behaviourally identical because `"None"` names no operation. -/
def executeFileOperation (parsePath : String → FPath) (resolve : FPath → FPath)
    (allowedDirs : List FPath) (cb : Option Handler) (fs : FS) (wl : Whitelist)
    (operation pathStr content : Option String) :
    Except (Exn × FS × Whitelist) FileOpOutcome :=
  match pathStr with
  | none => Except.error ("TypeError: expected str, not NoneType", fs, wl)
  | some ps =>
    let filePath := parsePath ps
    if !isPathAllowed resolve allowedDirs filePath then
      Except.ok ⟨"Error: Path " ++ sqt ++ ps ++ sqt ++ " is not in allowed directories", fs, wl, false⟩
    else
      let opStr := match operation with | some s => s | none => "None"
      if opStr == "delete_file" || opStr == "delete_directory" || opStr == "create_file" then
        let isDestructive := pyStartsWith opStr "delete"
        let actionDesc := opStr ++ " on " ++ renderPath filePath
        let whitelistItem := opStr ++ ":" ++ renderPath (parentPath filePath)
        match requestConfirmation wl cb "file_operations" actionDesc whitelistItem isDestructive with
        | Except.error e => Except.error (e, fs, wl)
        | Except.ok ((execute, remember), invoked) =>
          if !execute then Except.ok ⟨"Action cancelled by user: " ++ actionDesc, fs, wl, invoked⟩
          else
            let wl2 := if remember then wl.add "file_operations" whitelistItem else wl
            Except.ok (fileOpTryBlock fs wl2 invoked opStr filePath content)
      else
        Except.ok (fileOpTryBlock fs wl false opStr filePath content)

/-! ## Application launch (`ActionExecutor.launch_application`) -/

/-- Commands that always require confirmation, even if whitelisted
(module constant `DANGEROUS_COMMANDS`). -/
def DANGEROUS_COMMANDS : List String :=
  ["rm", "rmdir", "shred", "dd", "mkfs", "fdisk", "kill", "killall", "pkill", "chmod", "chown"]

/-- GUI applications that are launched detached. -/
def GUI_COMMANDS : List String := ["code", "firefox", "nautilus", "gedit"]


/-- `base_command = application.split()[0] if ' ' in application else application`. -/
def baseCommandOf (app : String) : String :=
  if pyContainsChar app ' ' then (pySplitWhitespace app).headD "" else app

/-- `cmd_with_args = f"{application} {' '.join(args)}" if args else application`
(a `None` or empty `args` list is falsy). -/
def cmdWithArgsOf (app : String) (args : Option (List String)) : String :=
  match args with
  | some (a :: rest) => app ++ " " ++ String.intercalate " " (a :: rest)
  | _ => app

/-- What the operating system reports for a synchronous
`subprocess.run(cmd, capture_output=True, text=True, timeout=5)`. -/
inductive SubprocessResult where
  | completed (stdout stderr : String)
  | timedOut
  | raised (e : Exn)
deriving DecidableEq, Repr

/-- Oracles for the two process-spawning primitives: `subprocess.Popen`
(detached; `none` means it spawned fine) and `subprocess.run`. -/
structure LaunchOracles where
  popen : List String → Option Exn
  run : List String → SubprocessResult

/-- Outcome of `launch_application`: the message, the whitelist afterwards,
whether the confirmation callback ran, and the argv handed to the OS
(`none` when the request was denied or cancelled before any spawn). -/
structure LaunchOutcome where
  output : String
  wl : Whitelist
  handlerInvoked : Bool
  launched : Option (List String)
deriving DecidableEq, Repr

/-- `ActionExecutor.launch_application(application, args)`.  An
all-whitespace `application` makes Python's `split()[0]` raise; the model
returns `""`, which no allow-list contains, giving the same denial text at
the user boundary. -/
def launchApplication (commandWhitelist : List String) (oracles : LaunchOracles)
    (cb : Option Handler) (wl : Whitelist) (application : Option String)
    (args : Option (List String)) : Except (Exn × Whitelist) LaunchOutcome :=
  match application with
  | none => Except.error ("TypeError: argument of type NoneType is not iterable", wl)
  | some app =>
    let baseCommand := baseCommandOf app
    if !(commandWhitelist.contains baseCommand) then
      Except.ok ⟨"Error: Command " ++ sqt ++ baseCommand ++ sqt ++ " is not in whitelist",
        wl, false, none⟩
    else
      let cmdWithArgs := cmdWithArgsOf app args
      let isDangerous := DANGEROUS_COMMANDS.contains baseCommand
      let actionDesc :=
        if isDangerous then "⚠ DANGEROUS: " ++ cmdWithArgs else "Launch: " ++ cmdWithArgs
      match requestConfirmation wl cb "applications" actionDesc cmdWithArgs isDangerous with
      | Except.error e => Except.error (e, wl)
      | Except.ok ((execute, remember), invoked) =>
        if !execute then Except.ok ⟨"Action cancelled by user: " ++ actionDesc, wl, invoked, none⟩
        else
          let wl2 := if remember then wl.add "applications" cmdWithArgs else wl
          let cmd := app :: (match args with | some l => l | none => [])
          if GUI_COMMANDS.contains baseCommand then
            match oracles.popen cmd with
            | none => Except.ok ⟨"Launched " ++ app, wl2, invoked, some cmd⟩
            | some e => Except.ok ⟨"Error launching application: " ++ e, wl2, invoked, some cmd⟩
          else
            match oracles.run cmd with
            | SubprocessResult.completed out errOut =>
              let output := out.trim
              let output := if !(errOut == "") then output ++ "\nErrors: " ++ errOut.trim else output
              let output :=
                if 1000 < output.length then output.take 1000 ++ "\n... (truncated)" else output
              if !(output == "") then
                Except.ok ⟨"Command output:\n" ++ output, wl2, invoked, some cmd⟩
              else Except.ok ⟨"Command executed: " ++ app, wl2, invoked, some cmd⟩
            | SubprocessResult.timedOut =>
              Except.ok ⟨"Error: Command timed out: " ++ app, wl2, invoked, some cmd⟩
            | SubprocessResult.raised e =>
              Except.ok ⟨"Error launching application: " ++ e, wl2, invoked, some cmd⟩

/-! ## Retry policy (`error_recovery.RetryPolicy`) -/

/-- Result of `RetryPolicy.execute`: success, `RetryExhaustedError` wrapping
the last underlying exception (`none` mirrors `last_exception = None` when
the loop body never ran), or a non-retryable exception escaping unwrapped. -/
inductive RetryOutcome (E A : Type) where
  | success (a : A)
  | exhausted (last : Option E)
  | escaped (e : E)
deriving DecidableEq, Repr

/-- `RetryPolicy.__init__` configuration.  Delays are rationals: the source
manipulates floats only through `*` and `min`, which `ℚ` mirrors exactly. -/
structure RetryPolicy where
  max_attempts : Nat
  backoff_factor : ℚ
  initial_delay : ℚ
  max_delay : ℚ
deriving DecidableEq, Repr

/-- The `for attempt in range(1, max_attempts + 1)` loop of
`RetryPolicy.execute`.  `retryable` models `isinstance(e, self.exceptions)`;
`op k` is what the wrapped call returns on its `k`-th invocation.  Returns
the outcome, the number of invocations of `op`, and the list of sleeps
performed (in seconds). -/
def RetryPolicy.executeAux {E A : Type} (p : RetryPolicy) (retryable : E → Bool)
    (op : Nat → Except E A) (attempt : Nat) (delay : ℚ) (last : Option E) :
    RetryOutcome E A × Nat × List ℚ :=
  if attempt ≤ p.max_attempts then
    match op attempt with
    | Except.ok a => (RetryOutcome.success a, 1, [])
    | Except.error e =>
      if retryable e then
        if attempt < p.max_attempts then
          let r := p.executeAux retryable op (attempt + 1)
            (min (delay * p.backoff_factor) p.max_delay) (some e)
          (r.1, r.2.1 + 1, delay :: r.2.2)
        else (RetryOutcome.exhausted (some e), 1, [])
      else (RetryOutcome.escaped e, 1, [])
  else (RetryOutcome.exhausted last, 0, [])
termination_by p.max_attempts + 1 - attempt
decreasing_by omega

/-- `RetryPolicy.execute(func, *args, **kwargs)`. -/
def RetryPolicy.execute {E A : Type} (p : RetryPolicy) (retryable : E → Bool)
    (op : Nat → Except E A) : RetryOutcome E A × Nat × List ℚ :=
  p.executeAux retryable op 1 p.initial_delay none

/-! ## Fallback chain (`error_recovery.FallbackChain`) -/

namespace FallbackChain

/-- The `for idx, func in enumerate(self.functions)` loop of
`FallbackChain.execute`.  Each candidate is represented by the outcome of
its single call; the second component lists the indices of the candidates
actually called, in call order. -/
def executeAux {E A : Type} : List (Except E A) → Option E →
    (Except (Option E) (A × Nat)) × List Nat
  | [], last => (Except.error last, [])
  | Except.ok a :: _, _ => (Except.ok (a, 0), [0])
  | Except.error e :: rest, _ =>
    let r := executeAux rest (some e)
    ((match r.1 with
      | Except.ok (a, i) => Except.ok (a, i + 1)
      | Except.error l => Except.error l), 0 :: r.2.map (· + 1))

/-- `FallbackChain(primary, *fallbacks).execute(*args)`: `self.functions =
[primary] + list(fallbacks)`, tried in order; on success returns `(result,
index)`; if every candidate raises, the last exception is re-raised. -/
def execute {E A : Type} (primary : Except E A) (fallbacks : List (Except E A)) :
    (Except (Option E) (A × Nat)) × List Nat :=
  executeAux (primary :: fallbacks) none

end FallbackChain

/-! ## Web fetch (`ActionExecutor.fetch_web_page`) -/

/-- A concrete model of `urlparse(url).netloc`: the text between the first
`//` and the next path/query/fragment delimiter. -/
def netlocModel (url : String) : String :=
  match url.splitOn "//" with
  | _ :: rest :: _ => rest.takeWhile fun c => !(c == '/') && !(c == '?') && !(c == '#')
  | _ => ""

/-- `ActionExecutor._fetch_once(url)`: the whole HTTP + HTML-extraction
pipeline is an oracle returning either the cleaned page text or the raised
exception; the method catches every exception and always returns a string.
`attempt` indexes the call, since the network may answer differently each
time.  (In the program this method is unreachable from `fetch_web_page`:
the `settings.enable_retry_logic` read raises first; see `fetchWebPage`.) -/
def fetchOnce (oracle : Nat → String → Except Exn String) (attempt : Nat) (url : String) : String :=
  match oracle attempt url with
  | Except.ok text =>
    let text := if 2000 < text.length then text.take 2000 ++ "\n... (truncated)" else text
    "Content from " ++ url ++ ":\n" ++ text
  | Except.error e => "Error fetching web page: " ++ e

/-- The decorator configuration on `_fetch_with_retry`:
`retry_with_backoff(max_attempts=3, initial_delay=2.0, backoff_factor=2.0)`
with the default `max_delay=30.0`.  Like `_fetch_once`, unreachable from
`fetch_web_page` in the program. -/
def fetchRetryPolicy : RetryPolicy :=
  { max_attempts := 3, backoff_factor := 2, initial_delay := 2, max_delay := 30 }

/-- Outcome of `fetch_web_page`: message, whitelist afterwards, and whether
the confirmation callback ran. -/
structure WebFetchOutcome where
  output : String
  wl : Whitelist
  handlerInvoked : Bool
deriving DecidableEq, Repr

/-- `ActionExecutor.fetch_web_page(url)`: confirmation is keyed by the URL's
domain (`urlparse(url).netloc`), never forced; an approval with remember
adds the domain to the whitelist.  The next statement,
`if settings.enable_retry_logic:`, then reads a field that
`config.Settings` never defines, so it raises `AttributeError` before any
fetch is attempted — the retry/fetch code below it (`_fetch_with_retry`,
`_fetch_once`) is unreachable from here.  A raise carries the whitelist at
that point and whether the confirmation callback had been invoked (on the
confirmation-raise path the callback is the only raise source, so it was
invoked). -/
def fetchWebPage (netloc : String → String) (cb : Option Handler)
    (wl : Whitelist) (url : Option String) :
    Except (Exn × Whitelist × Bool) WebFetchOutcome :=
  match url with
  | none => Except.error ("TypeError: urlparse expected a string, got NoneType", wl, false)
  | some u =>
    let domain := netloc u
    let actionDesc := "Fetch web page: " ++ u
    match requestConfirmation wl cb "web_urls" actionDesc domain false with
    | Except.error e => Except.error (e, wl, true)
    | Except.ok ((execute, remember), invoked) =>
      if !execute then Except.ok ⟨"Action cancelled by user: " ++ actionDesc, wl, invoked⟩
      else
        let wl2 := if remember then wl.add "web_urls" domain else wl
        Except.error ("AttributeError: Settings object has no attribute enable_retry_logic",
          wl2, invoked)

/-! ## Tool-call dispatch (`ActionExecutor.execute_tool_call`) -/

/-- The arguments object of a tool call; each field is `none` when the LLM
omitted the key (`arguments.get(...)` returning `None`). -/
structure ToolArguments where
  operation : Option String
  path : Option String
  content : Option String
  url : Option String
  application : Option String
  args : Option (List String)
deriving DecidableEq, Repr

/-- A tool call: `tool_call["function"]["name"]` (defaulted to `""`) and its
arguments. -/
structure ToolCall where
  name : String
  arguments : ToolArguments
deriving DecidableEq, Repr

/-- The mutable state the executor touches: filesystem and whitelist. -/
structure SysState where
  fs : FS
  wl : Whitelist
deriving DecidableEq, Repr

/-- All the environment oracles the executor consults. -/
structure Oracles where
  parsePath : String → FPath
  resolve : FPath → FPath
  netloc : String → String
  launch : LaunchOracles

/-- The configuration the executor reads from `settings`:
`allowed_dirs_list` and `command_whitelist_list` are the only fields
consulted that `config.Settings` actually defines
(`enable_retry_logic` does not exist; see `fetchWebPage`). -/
structure Settings where
  allowedDirs : List FPath
  commandWhitelist : List String

/-- The `try:` body of `execute_tool_call`: dispatch on the function name.
Returns the result string, the state afterwards, and whether the
confirmation callback ran; a raise carries the state at that point. -/
def executeToolCallExc (cfg : Settings) (O : Oracles) (cb : Option Handler)
    (st : SysState) (tc : ToolCall) : Except (Exn × SysState) (String × SysState × Bool) :=
  if tc.name == "execute_file_operation" then
    match executeFileOperation O.parsePath O.resolve cfg.allowedDirs cb st.fs st.wl
        tc.arguments.operation tc.arguments.path tc.arguments.content with
    | Except.ok o => Except.ok (o.output, ⟨o.fs, o.wl⟩, o.handlerInvoked)
    | Except.error (e, fs2, wl2) => Except.error (e, ⟨fs2, wl2⟩)
  else if tc.name == "fetch_web_page" then
    match fetchWebPage O.netloc cb st.wl tc.arguments.url with
    | Except.ok o => Except.ok (o.output, ⟨st.fs, o.wl⟩, o.handlerInvoked)
    | Except.error (e, wl2, _) => Except.error (e, ⟨st.fs, wl2⟩)
  else if tc.name == "launch_application" then
    match launchApplication cfg.commandWhitelist O.launch cb st.wl
        tc.arguments.application tc.arguments.args with
    | Except.ok o => Except.ok (o.output, ⟨st.fs, o.wl⟩, o.handlerInvoked)
    | Except.error (e, wl2) => Except.error (e, ⟨st.fs, wl2⟩)
  else Except.ok ("Error: Unknown tool: " ++ tc.name, st, false)

/-- `ActionExecutor.execute_tool_call(tool_call)`: the single entry point;
its `except Exception` converts any escaping exception into a string. -/
def executeToolCall (cfg : Settings) (O : Oracles) (cb : Option Handler)
    (st : SysState) (tc : ToolCall) : String × SysState :=
  match executeToolCallExc cfg O cb st tc with
  | Except.ok (s, st2, _) => (s, st2)
  | Except.error (e, st2) => ("Error executing tool: " ++ e, st2)

/-! ## Helper lemmas -/

theorem fileOpTryBlock_wl (fs : FS) (wl : Whitelist) (inv : Bool) (opStr : String)
    (p : FPath) (c : Option String) : (fileOpTryBlock fs wl inv opStr p c).wl = wl := by
  unfold fileOpTryBlock
  split_ifs <;> rfl

theorem foldl_insert_mem (l : List FPath) (ds : List FPath) (d : FPath) (h : d ∈ ds) :
    d ∈ l.foldl (fun ds q => if ds.contains q then ds else q :: ds) ds := by
  induction l generalizing ds with
  | nil => exact h
  | cons q rest ih =>
    simp only [List.foldl_cons]
    apply ih
    split_ifs with hq
    · exact h
    · exact List.mem_cons_of_mem _ h

theorem FS.mkdirParents_dirs_mono (fs : FS) (p : FPath) (d : FPath) (h : d ∈ fs.dirs) :
    d ∈ (fs.mkdirParents p).dirs := by
  unfold mkdirParents
  exact foldl_insert_mem _ _ _ h

theorem fileOpTryBlock_dirs_mono (fs : FS) (wl : Whitelist) (inv : Bool) (opStr : String)
    (p : FPath) (c : Option String) (d : FPath) (h : d ∈ fs.dirs) :
    d ∈ (fileOpTryBlock fs wl inv opStr p c).fs.dirs := by
  unfold fileOpTryBlock
  split_ifs <;>
    first
      | exact h
      | exact FS.mkdirParents_dirs_mono _ _ _ h

/-- The sequence of sleeps the retry loop performs when every attempt
fails: the head is the current delay, and each step applies
`delay = min(delay * backoff_factor, max_delay)`. -/
def delaySeq (b m δ : ℚ) : Nat → ℚ
  | 0 => δ
  | k + 1 => delaySeq b m (min (δ * b) m) k

theorem range_map_delaySeq (b m δ : ℚ) (n : Nat) :
    (List.range (n + 1)).map (delaySeq b m δ) =
      δ :: (List.range n).map (delaySeq b m (min (δ * b) m)) := by
  rw [List.range_succ_eq_map, List.map_cons, List.map_map]
  rfl

theorem delaySeq_closed (b m : ℚ) (hb : 0 ≤ b) :
    ∀ (k : Nat) (δ : ℚ), 0 ≤ δ → δ ≤ m → delaySeq b m δ k = min (δ * b ^ k) m := by
  intro k
  induction k with
  | zero =>
    intro δ h0 hm
    simp [delaySeq, min_eq_left hm]
  | succ k ih =>
    intro δ h0 hm
    have hm0 : 0 ≤ m := le_trans h0 hm
    rw [delaySeq]
    rcases le_or_lt (δ * b) m with hle | hgt
    · rw [ih (min (δ * b) m) (le_min (mul_nonneg h0 hb) hm0) (min_le_right _ _)]
      rw [min_eq_left hle]
      congr 1
      rw [pow_succ]
      ring
    · have hb1 : 1 ≤ b := by nlinarith
      have hbk : 1 ≤ b ^ k := one_le_pow₀ hb1
      rw [min_eq_right (le_of_lt hgt)]
      rw [ih m hm0 le_rfl]
      rw [min_eq_right (le_mul_of_one_le_right hm0 hbk)]
      have h2 : m ≤ δ * b ^ (k + 1) := by
        have : δ * b ≤ δ * b * b ^ k := le_mul_of_one_le_right (by nlinarith) hbk
        have heq : δ * b * b ^ k = δ * b ^ (k + 1) := by rw [pow_succ]; ring
        nlinarith
      rw [min_eq_right h2]

theorem retry_executeAux_always_fail {E A : Type} (p : RetryPolicy) (retryable : E → Bool)
    (op : Nat → Except E A) (err : Nat → E)
    (hop : ∀ k, op k = Except.error (err k)) (hret : ∀ k, retryable (err k) = true) :
    ∀ (n attempt : Nat) (δ : ℚ) (last : Option E),
      p.max_attempts - attempt = n → 1 ≤ attempt → attempt ≤ p.max_attempts →
      p.executeAux retryable op attempt δ last =
        (RetryOutcome.exhausted (some (err p.max_attempts)), p.max_attempts + 1 - attempt,
          (List.range (p.max_attempts - attempt)).map (delaySeq p.backoff_factor p.max_delay δ)) := by
  intro n
  induction n with
  | zero =>
    intro attempt δ last hn h1 h2
    have heq : attempt = p.max_attempts := by omega
    subst heq
    have h3 : p.max_attempts + 1 - p.max_attempts = 1 := by omega
    rw [RetryPolicy.executeAux, if_pos h2, hop p.max_attempts]
    simp [hret p.max_attempts, h3]
  | succ k ih =>
    intro attempt δ last hn h1 h2
    have hlt : attempt < p.max_attempts := by omega
    rw [RetryPolicy.executeAux, if_pos h2, hop attempt]
    simp only [hret attempt, if_pos hlt, if_true]
    rw [ih (attempt + 1) (min (δ * p.backoff_factor) p.max_delay) (some (err attempt))
      (by omega) (by omega) (by omega)]
    simp only []
    have hc : p.max_attempts + 1 - (attempt + 1) + 1 = p.max_attempts + 1 - attempt := by omega
    have hr : p.max_attempts - attempt = (p.max_attempts - (attempt + 1)) + 1 := by omega
    rw [hc, hr, range_map_delaySeq]

theorem retry_execute_always_fail {E A : Type} (p : RetryPolicy) (retryable : E → Bool)
    (op : Nat → Except E A) (err : Nat → E)
    (hop : ∀ k, op k = Except.error (err k)) (hret : ∀ k, retryable (err k) = true)
    (hN : 1 ≤ p.max_attempts) :
    p.execute retryable op =
      (RetryOutcome.exhausted (some (err p.max_attempts)), p.max_attempts,
        (List.range (p.max_attempts - 1)).map
          (delaySeq p.backoff_factor p.max_delay p.initial_delay)) := by
  unfold RetryPolicy.execute
  rw [retry_executeAux_always_fail p retryable op err hop hret (p.max_attempts - 1) 1
    p.initial_delay none (by omega) le_rfl hN]
  simp

theorem retry_first_ok {E A : Type} (p : RetryPolicy) (retryable : E → Bool)
    (op : Nat → Except E A) (a : A) (h1 : op 1 = Except.ok a) (hN : 1 ≤ p.max_attempts) :
    p.execute retryable op = (RetryOutcome.success a, 1, []) := by
  unfold RetryPolicy.execute
  rw [RetryPolicy.executeAux, if_pos hN, h1]

theorem requestConfirmation_forced (wl : Whitelist) (h : Handler) (category desc item : String) :
    requestConfirmation wl (some h) category desc item true =
      (h desc item).map (fun d => (d, true)) := by
  simp [requestConfirmation]

theorem requestConfirmation_none (wl : Whitelist) (category desc item : String) (force : Bool) :
    requestConfirmation wl none category desc item force =
      Except.ok ((!force && wl.isWhitelisted category item, false), false) := by
  rcases hcond : !force && wl.isWhitelisted category item <;>
    simp [requestConfirmation, hcond]

theorem fallback_executeAux_ok {E A : Type} (a : A) :
    ∀ (errs : List E) (rest : List (Except E A)) (last : Option E),
      FallbackChain.executeAux (errs.map Except.error ++ Except.ok a :: rest) last =
        (Except.ok (a, errs.length), List.range (errs.length + 1)) := by
  intro errs
  induction errs with
  | nil =>
    intro rest last
    simp [FallbackChain.executeAux, List.range_succ_eq_map]
  | cons e errs ih =>
    intro rest last
    simp only [List.map_cons, List.cons_append, FallbackChain.executeAux, List.append_eq]
    rw [ih rest (some e)]
    simp [List.range_succ_eq_map, List.map_map, Nat.succ_eq_add_one, Function.comp]

theorem fallback_executeAux_err {E A : Type} :
    ∀ (errs : List E) (e : E) (last : Option E),
      FallbackChain.executeAux (A := A) (errs.map Except.error ++ [Except.error e]) last =
        (Except.error (some e), List.range (errs.length + 1)) := by
  intro errs
  induction errs with
  | nil =>
    intro e last
    simp [FallbackChain.executeAux, List.range_succ_eq_map]
  | cons e2 errs ih =>
    intro e last
    simp only [List.map_cons, List.cons_append, FallbackChain.executeAux, List.append_eq]
    rw [ih e (some e2)]
    simp [List.range_succ_eq_map, List.map_map, Nat.succ_eq_add_one, Function.comp]

/-! ## Claims -/

/-- Claim C1: a file operation whose path does not resolve inside any
configured allowed root returns a denial string, leaves the filesystem and
whitelist untouched, and never consults the confirmation gate; a launch
request whose base command is not in the command allow-list returns a
denial string with no confirmation and no spawn. -/
theorem C1_hard_boundary_denials
    (parsePath : String → FPath) (resolve : FPath → FPath) (allowedDirs : List FPath)
    (cb : Option Handler) (fs : FS) (wl : Whitelist) (operation content : Option String)
    (ps : String) (commandWhitelist : List String) (orc : LaunchOracles)
    (app : String) (args : Option (List String))
    (hpath : isPathAllowed resolve allowedDirs (parsePath ps) = false)
    (hcmd : commandWhitelist.contains (baseCommandOf app) = false) :
    executeFileOperation parsePath resolve allowedDirs cb fs wl operation (some ps) content =
      Except.ok ⟨"Error: Path " ++ sqt ++ ps ++ sqt ++ " is not in allowed directories",
        fs, wl, false⟩
    ∧ launchApplication commandWhitelist orc cb wl (some app) args =
      Except.ok ⟨"Error: Command " ++ sqt ++ baseCommandOf app ++ sqt ++
        " is not in whitelist", wl, false, none⟩ := by
  constructor
  · simp only [executeFileOperation]
    rw [hpath]
    simp
  · have hm := hcmd
    simp at hm
    simp [launchApplication, hm]

theorem C1_hard_boundary_denials_witness :
    isPathAllowed id [["tmp"]] ((fun _ => ["etc", "passwd"]) "/etc/passwd") = false ∧
    (["ls", "rm"] : List String).contains (baseCommandOf "vim") = false ∧
    executeFileOperation (fun _ => ["etc", "passwd"]) id [["tmp"]] none ⟨[], []⟩ ⟨[]⟩
      (some "delete_file") (some "/etc/passwd") none =
      Except.ok ⟨"Error: Path " ++ sqt ++ "/etc/passwd" ++ sqt ++ " is not in allowed directories",
        ⟨[], []⟩, ⟨[]⟩, false⟩
    ∧ launchApplication ["ls", "rm"] ⟨fun _ => none, fun _ => SubprocessResult.completed "" ""⟩
        none ⟨[]⟩ (some "vim") none =
      Except.ok ⟨"Error: Command " ++ sqt ++ baseCommandOf "vim" ++ sqt ++
        " is not in whitelist", ⟨[]⟩, false, none⟩ :=
  ⟨by decide, by decide,
    C1_hard_boundary_denials (fun _ => ["etc", "passwd"]) id [["tmp"]] none ⟨[], []⟩ ⟨[]⟩
      (some "delete_file") none "/etc/passwd" ["ls", "rm"]
      ⟨fun _ => none, fun _ => SubprocessResult.completed "" ""⟩ "vim" none
      (by decide) (by decide)⟩

/-- Claim C2: a non-forced authorization request for a category/key pair
already in the whitelist store returns `(execute=true, remember=false)`
without invoking the confirmation handler. -/
theorem C2_whitelisted_silent_approval (wl : Whitelist) (cb : Option Handler)
    (category desc item : String) (h : wl.isWhitelisted category item = true) :
    requestConfirmation wl cb category desc item false = Except.ok ((true, false), false) := by
  simp [requestConfirmation, h]

theorem C2_whitelisted_silent_approval_witness :
    (Whitelist.mk [("applications", "firefox")]).isWhitelisted "applications" "firefox" = true ∧
    requestConfirmation (Whitelist.mk [("applications", "firefox")]) none "applications"
      "Launch: firefox" "firefox" false = Except.ok ((true, false), false) :=
  ⟨by decide,
    C2_whitelisted_silent_approval (Whitelist.mk [("applications", "firefox")]) none
      "applications" "Launch: firefox" "firefox" (by decide)⟩

/-- Claim C3: a forced authorization request with a configured handler
invokes the handler even when the key is whitelisted under the category
(the whitelists `wl` and `wl2` below are arbitrary, so they may already
contain the key); in particular, a launch request whose base command is in
the dangerous-command set always reaches the confirmation handler. -/
theorem C3_forced_always_prompts (wl : Whitelist) (h : Handler) (category desc item : String) :
    requestConfirmation wl (some h) category desc item true =
      (h desc item).map (fun d => (d, true))
    ∧ ∀ (commandWhitelist : List String) (orc : LaunchOracles) (wl2 : Whitelist)
        (app : String) (args : Option (List String)) (h2 : Handler),
        (∀ s t, ∃ d, h2 s t = Except.ok d) →
        DANGEROUS_COMMANDS.contains (baseCommandOf app) = true →
        commandWhitelist.contains (baseCommandOf app) = true →
        ∃ o, launchApplication commandWhitelist orc (some h2) wl2 (some app) args = Except.ok o
          ∧ o.handlerInvoked = true := by
  refine ⟨requestConfirmation_forced wl h category desc item, ?_⟩
  intro cwl orc wl2 app args h2 htot hdang hcmd
  obtain ⟨d, hd⟩ := htot ("⚠ DANGEROUS: " ++ cmdWithArgsOf app args) (cmdWithArgsOf app args)
  have hm : baseCommandOf app ∈ cwl := by simpa using hcmd
  have hdm : baseCommandOf app ∈ DANGEROUS_COMMANDS := by simpa using hdang
  rcases d with ⟨ex, rem⟩
  cases ex with
  | false =>
    simp only [launchApplication]
    simp [hm, hdm, requestConfirmation_forced, hd, Except.map]
  | true =>
    simp only [launchApplication]
    simp [hm, hdm, requestConfirmation_forced, hd, Except.map]
    split_ifs <;>
      first
        | (exact ⟨_, rfl, rfl⟩)
        | (split <;>
            first
              | (exact ⟨_, rfl, rfl⟩)
              | (split_ifs <;> exact ⟨_, rfl, rfl⟩))

theorem C3_forced_always_prompts_witness :
    (∀ s t, (fun _ _ => Except.ok (true, false) : Handler) s t = Except.ok (true, false)) ∧
    DANGEROUS_COMMANDS.contains (baseCommandOf "rm") = true ∧
    (["ls", "rm"] : List String).contains (baseCommandOf "rm") = true ∧
    (⟨[("applications", "rm")]⟩ : Whitelist).isWhitelisted "applications" "rm" = true ∧
    ∃ o, launchApplication ["ls", "rm"]
        ⟨fun _ => none, fun _ => SubprocessResult.completed "" ""⟩
        (some (fun _ _ => Except.ok (true, false))) ⟨[("applications", "rm")]⟩ (some "rm")
        (some ["-rf", "/tmp/x"]) = Except.ok o ∧ o.handlerInvoked = true :=
  ⟨fun _ _ => rfl, by decide, by decide, by decide,
    (C3_forced_always_prompts ⟨[]⟩ (fun _ _ => Except.ok (true, false)) "" "" "").2
      ["ls", "rm"] ⟨fun _ => none, fun _ => SubprocessResult.completed "" ""⟩
      ⟨[("applications", "rm")]⟩ "rm" (some ["-rf", "/tmp/x"])
      (fun _ _ => Except.ok (true, false)) (fun _ _ => ⟨(true, false), rfl⟩)
      (by decide) (by decide)⟩

/-- Claim C4: with no confirmation handler configured and no whitelist
auto-approval (the request is forced, or the key is not whitelisted), the
authorization decision is `(execute=false, remember=false)`; moreover a
file operation run without a handler never changes the whitelist. -/
theorem C4_no_handler_fail_safe (wl : Whitelist) (category desc item : String) (force : Bool)
    (h : force = true ∨ wl.isWhitelisted category item = false) :
    requestConfirmation wl none category desc item force = Except.ok ((false, false), false)
    ∧ ∀ (parsePath : String → FPath) (resolve : FPath → FPath) (allowedDirs : List FPath)
        (fs : FS) (operation pathStr content : Option String) (o : FileOpOutcome),
        executeFileOperation parsePath resolve allowedDirs none fs wl operation pathStr content =
          Except.ok o → o.wl = wl := by
  constructor
  · rw [requestConfirmation_none]
    rcases h with h | h <;> simp [h]
  · intro parsePath resolve allowedDirs fs operation pathStr content o hexec
    rcases pathStr with _ | ps
    · simp [executeFileOperation] at hexec
    · simp only [executeFileOperation] at hexec
      rw [requestConfirmation_none] at hexec
      simp only [Except.map] at hexec
      split_ifs at hexec <;>
        first
          | exact (by assumption : False).elim
          | (have ho := Except.ok.inj hexec
             subst ho
             first
               | rfl
               | rw [fileOpTryBlock_wl])

theorem C4_no_handler_fail_safe_witness :
    ((true : Bool) = true ∨ (⟨[]⟩ : Whitelist).isWhitelisted "file_operations" "x" = false) ∧
    requestConfirmation ⟨[]⟩ none "file_operations" "delete_file on /tmp/x" "x" true =
      Except.ok ((false, false), false) ∧
    ∀ (parsePath : String → FPath) (resolve : FPath → FPath) (allowedDirs : List FPath)
        (fs : FS) (operation pathStr content : Option String) (o : FileOpOutcome),
        executeFileOperation parsePath resolve allowedDirs none fs ⟨[]⟩ operation pathStr content =
          Except.ok o → o.wl = ⟨[]⟩ :=
  ⟨Or.inl rfl,
    (C4_no_handler_fail_safe ⟨[]⟩ "file_operations" "delete_file on /tmp/x" "x" true
      (Or.inl rfl)).1,
    (C4_no_handler_fail_safe ⟨[]⟩ "file_operations" "delete_file on /tmp/x" "x" true
      (Or.inl rfl)).2⟩

/-- Claim C5, amended: `RetryPolicy.execute` with `max_attempts = N ≥ 1` on
an operation that always raises a retryable failure calls the operation
exactly N times, raises `RetryExhausted` wrapping the last underlying
failure, inserts no delay after the final attempt, and — provided the
configuration satisfies `0 ≤ initial_delay ≤ max_delay` and
`0 ≤ backoff_factor` — sleeps between attempts for the sequence
`initial_delay * backoff_factor^(attempt-1)` clamped to `max_delay`.  (As
originally stated the claim fails when `initial_delay > max_delay`: the
first sleep is the unclamped `initial_delay`; see the counterexample.) -/
theorem C5_retry_exhausts_with_backoff {E A : Type} (N : Nat) (b d m : ℚ)
    (retryable : E → Bool) (op : Nat → Except E A) (err : Nat → E)
    (hop : ∀ k, op k = Except.error (err k)) (hret : ∀ k, retryable (err k) = true)
    (hN : 1 ≤ N) (hd0 : 0 ≤ d) (hdm : d ≤ m) (hb : 0 ≤ b) :
    RetryPolicy.execute ⟨N, b, d, m⟩ retryable op =
      (RetryOutcome.exhausted (some (err N)), N,
        (List.range (N - 1)).map (fun k => min (d * b ^ k) m)) := by
  rw [retry_execute_always_fail ⟨N, b, d, m⟩ retryable op err hop hret hN]
  congr 1
  congr 1
  apply List.map_congr_left
  intro k _
  exact delaySeq_closed b m hb k d hd0 hdm

theorem C5_retry_exhausts_with_backoff_witness :
    (∀ k : Nat, (fun _ : Nat => (Except.error 0 : Except Nat Nat)) k =
      Except.error ((fun _ : Nat => (0 : Nat)) k)) ∧
    (∀ k : Nat, (fun _ : Nat => true) ((fun _ : Nat => (0 : Nat)) k) = true) ∧
    1 ≤ 3 ∧ (0 : ℚ) ≤ 1 ∧ (1 : ℚ) ≤ 30 ∧ (0 : ℚ) ≤ 2 ∧
    RetryPolicy.execute ⟨3, 2, 1, 30⟩ (fun _ : Nat => true)
        (fun _ : Nat => (Except.error 0 : Except Nat Nat)) =
      (RetryOutcome.exhausted (some 0), 3,
        (List.range (3 - 1)).map (fun k => min ((1 : ℚ) * 2 ^ k) 30)) :=
  ⟨fun _ => rfl, fun _ => rfl, by norm_num, by norm_num, by norm_num, by norm_num,
    C5_retry_exhausts_with_backoff 3 2 1 30 (fun _ => true)
      (fun _ => Except.error 0) (fun _ => 0) (fun _ => rfl) (fun _ => rfl)
      (by norm_num) (by norm_num) (by norm_num) (by norm_num)⟩

/-- Claim C5, counterexample to the original wording: with
`max_attempts = 2`, `initial_delay = 50`, `backoff_factor = 2`,
`max_delay = 30`, an always-failing retryable operation makes the loop
sleep exactly once, for 50 seconds — the unclamped `initial_delay` — while
the claimed clamped sequence `initial_delay * backoff_factor^0` capped at
`max_delay` gives 30. -/
theorem C5_retry_first_delay_unclamped :
    (RetryPolicy.execute ⟨2, 2, 50, 30⟩ (fun _ : Nat => true)
        (fun _ => (Except.error 0 : Except Nat Nat))).2.2 = [(50 : ℚ)]
    ∧ ((50 : ℚ)) ≠ min ((50 : ℚ) * 2 ^ 0) 30 := by
  constructor
  · rw [retry_execute_always_fail ⟨2, 2, 50, 30⟩ (fun _ => true) (fun _ => Except.error 0)
      (fun _ => 0) (fun _ => rfl) (fun _ => rfl) (by norm_num)]
    simp [List.range_succ, delaySeq]
  · norm_num

/-- Claim C6: a failure that is not in the retryable-condition set
propagates to the caller immediately and unwrapped: the operation is
called once, no sleep happens, and the exception escapes as-is. -/
theorem C6_nonretryable_escapes {E A : Type} (p : RetryPolicy) (retryable : E → Bool)
    (op : Nat → Except E A) (e : E) (hN : 1 ≤ p.max_attempts)
    (h1 : op 1 = Except.error e) (hret : retryable e = false) :
    p.execute retryable op = (RetryOutcome.escaped e, 1, []) := by
  unfold RetryPolicy.execute
  rw [RetryPolicy.executeAux, if_pos hN, h1]
  simp [hret]

theorem C6_nonretryable_escapes_witness :
    1 ≤ (RetryPolicy.mk 3 2 1 30).max_attempts ∧
    (fun _ : Nat => (Except.error "boom" : Except Exn Nat)) 1 = Except.error "boom" ∧
    (fun _ : Exn => false) "boom" = false ∧
    RetryPolicy.execute ⟨3, 2, 1, 30⟩ (fun _ : Exn => false)
        (fun _ : Nat => (Except.error "boom" : Except Exn Nat)) =
      (RetryOutcome.escaped "boom", 1, []) :=
  ⟨by norm_num, rfl, rfl,
    C6_nonretryable_escapes ⟨3, 2, 1, 30⟩ (fun _ => false)
      (fun _ => Except.error "boom") "boom" (by norm_num) rfl rfl⟩

/-- Claim C7: the fallback chain tries its candidates strictly in
declaration order, calling each at most once — the call trace is exactly
the indices `0..i` in order; the first candidate that does not raise
short-circuits the rest with `(result, index)`; if every candidate raises,
the last candidate's exception is re-raised as-is, not wrapped. -/
theorem C7_fallback_chain_order {E A : Type} (primary : Except E A)
    (fallbacks : List (Except E A)) :
    (∀ (errs : List E) (a : A) (rest : List (Except E A)),
        primary :: fallbacks = errs.map Except.error ++ Except.ok a :: rest →
        FallbackChain.execute primary fallbacks =
          (Except.ok (a, errs.length), List.range (errs.length + 1)))
    ∧ (∀ (errs : List E) (e : E),
        primary :: fallbacks = errs.map Except.error ++ [Except.error e] →
        FallbackChain.execute primary fallbacks =
          (Except.error (some e), List.range (errs.length + 1))) := by
  constructor
  · intro errs a rest hdecomp
    unfold FallbackChain.execute
    rw [hdecomp]
    exact fallback_executeAux_ok a errs rest none
  · intro errs e hdecomp
    unfold FallbackChain.execute
    rw [hdecomp]
    exact fallback_executeAux_err errs e none

theorem C7_fallback_chain_order_witness :
    ([Except.error "e1", Except.ok (7 : Nat)] =
      (["e1"] : List Exn).map Except.error ++ Except.ok 7 :: []) ∧
    FallbackChain.execute (Except.error "e1") [Except.ok (7 : Nat)] =
      (Except.ok (7, 1), List.range 2) :=
  ⟨rfl,
    (C7_fallback_chain_order (Except.error "e1") [Except.ok (7 : Nat)]).1 ["e1"] 7 [] rfl⟩

/-- Claim C8: `execute_tool_call` is a total function returning a string
outcome for every tool call, over arbitrary settings, oracles, handler and
state (each of which may fail internally): whenever the dispatch body
raises, the boundary converts the exception into an
"Error executing tool" string rather than letting it escape. -/
theorem C8_tool_call_never_raises (cfg : Settings) (O : Oracles) (cb : Option Handler)
    (st : SysState) (tc : ToolCall) :
    (∃ s st2 inv, executeToolCallExc cfg O cb st tc = Except.ok (s, st2, inv) ∧
      executeToolCall cfg O cb st tc = (s, st2))
    ∨ (∃ e st2, executeToolCallExc cfg O cb st tc = Except.error (e, st2) ∧
      executeToolCall cfg O cb st tc = ("Error executing tool: " ++ e, st2)) := by
  rcases hx : executeToolCallExc cfg O cb st tc with ⟨e, st2⟩ | ⟨s, st2, inv⟩
  · exact Or.inr ⟨e, st2, rfl, by simp [executeToolCall, hx]⟩
  · exact Or.inl ⟨s, st2, inv, rfl, by simp [executeToolCall, hx]⟩

/-- Claim C9: web fetches are whitelisted by domain, not by full URL: a
first fetch whose domain is not yet whitelisted and which the handler
approves with remember=true stores the domain (the add precedes the
`settings.enable_retry_logic` read that raises), and a subsequent
non-forced fetch of any URL with the same domain is then auto-approved
without invoking the confirmation handler — the invoked flag of the second
call is `false`, and it proceeds past the gate (it does not cancel),
reaching the same post-approval raise with the whitelist unchanged. -/
theorem C9_fetch_whitelists_domain (netloc : String → String) (h : Handler)
    (wl : Whitelist) (u1 u2 : String)
    (hdom : netloc u2 = netloc u1)
    (hnotwl : wl.isWhitelisted "web_urls" (netloc u1) = false)
    (happrove : h ("Fetch web page: " ++ u1) (netloc u1) = Except.ok (true, true)) :
    fetchWebPage netloc (some h) wl (some u1) =
      Except.error ("AttributeError: Settings object has no attribute enable_retry_logic",
        wl.add "web_urls" (netloc u1), true)
    ∧ fetchWebPage netloc (some h) (wl.add "web_urls" (netloc u1)) (some u2) =
      Except.error ("AttributeError: Settings object has no attribute enable_retry_logic",
        wl.add "web_urls" (netloc u1), false) := by
  constructor
  · have hreq : requestConfirmation wl (some h) "web_urls" ("Fetch web page: " ++ u1)
        (netloc u1) false = Except.ok ((true, true), true) := by
      simp [requestConfirmation, hnotwl, happrove, Except.map]
    simp only [fetchWebPage]
    rw [hreq]
    simp
  · have hwl2 := Whitelist.isWhitelisted_add_self wl "web_urls" (netloc u1)
    have hreq : requestConfirmation (wl.add "web_urls" (netloc u1)) (some h) "web_urls"
        ("Fetch web page: " ++ u2) (netloc u2) false = Except.ok ((true, false), false) := by
      rw [hdom]
      simp [requestConfirmation, hwl2]
    simp only [fetchWebPage]
    rw [hreq]
    simp

theorem C9_fetch_whitelists_domain_witness :
    ((fun _ : String => "example.com") "https://example.com/b" =
      (fun _ : String => "example.com") "https://example.com/a") ∧
    (⟨[]⟩ : Whitelist).isWhitelisted "web_urls" "example.com" = false ∧
    ((fun _ _ => Except.ok (true, true) : Handler)
      ("Fetch web page: " ++ "https://example.com/a") "example.com" = Except.ok (true, true)) ∧
    (fetchWebPage (fun _ => "example.com") (some (fun _ _ => Except.ok (true, true))) ⟨[]⟩
        (some "https://example.com/a") =
      Except.error ("AttributeError: Settings object has no attribute enable_retry_logic",
        Whitelist.add ⟨[]⟩ "web_urls" "example.com", true))
    ∧ (fetchWebPage (fun _ => "example.com") (some (fun _ _ => Except.ok (true, true)))
        (Whitelist.add ⟨[]⟩ "web_urls" "example.com") (some "https://example.com/b") =
      Except.error ("AttributeError: Settings object has no attribute enable_retry_logic",
        Whitelist.add ⟨[]⟩ "web_urls" "example.com", false)) :=
  ⟨rfl, by decide, rfl,
    C9_fetch_whitelists_domain (fun _ => "example.com") (fun _ _ => Except.ok (true, true))
      ⟨[]⟩ "https://example.com/a" "https://example.com/b" rfl (by decide) rfl⟩

theorem executeFileOperation_dirs_mono
    (parsePath : String → FPath) (resolve : FPath → FPath) (allowedDirs : List FPath)
    (cb : Option Handler) (fs : FS) (wl : Whitelist)
    (operation pathStr content : Option String) :
    (∀ o, executeFileOperation parsePath resolve allowedDirs cb fs wl
        operation pathStr content = Except.ok o → ∀ d ∈ fs.dirs, d ∈ o.fs.dirs)
    ∧ (∀ e fs2 wlx, executeFileOperation parsePath resolve allowedDirs cb fs wl
        operation pathStr content = Except.error (e, fs2, wlx) → fs2 = fs) := by
  rcases pathStr with _ | ps
  · constructor
    · intro o hexec
      simp [executeFileOperation] at hexec
    · intro e fs2 wlx hexec
      simp [executeFileOperation] at hexec
      exact hexec.2.1.symm
  · constructor
    · intro o hexec d hd
      simp only [executeFileOperation] at hexec
      split_ifs at hexec
      · cases Except.ok.inj hexec
        exact hd
      · split at hexec
        · exact absurd hexec (by simp)
        · split_ifs at hexec <;>
            (cases Except.ok.inj hexec
             first
               | exact hd
               | exact fileOpTryBlock_dirs_mono _ _ _ _ _ _ d hd)
      · cases Except.ok.inj hexec
        exact fileOpTryBlock_dirs_mono _ _ _ _ _ _ d hd
    · intro e fs2 wlx hexec
      simp only [executeFileOperation] at hexec
      split_ifs at hexec <;>
        first
          | (split at hexec <;>
              first
                | (simp only [Except.error.injEq, Prod.mk.injEq] at hexec
                   exact hexec.2.1.symm)
                | (split_ifs at hexec <;> simp at hexec)
                | simp at hexec)
          | simp at hexec

/-- Claim C10: a `delete_directory` request inside an allowed root forces a
confirmation (the callback is consulted with `force`, on an arbitrary
whitelist), and when the handler approves execution the result is the
string "Error: Unknown operation: delete_directory" with the filesystem
unchanged; moreover no code path of `execute_file_operation` ever removes
a directory — the directory set only grows, and a raise leaves the
filesystem as it was. -/
theorem C10_delete_directory_is_noop
    (parsePath : String → FPath) (resolve : FPath → FPath) (allowedDirs : List FPath)
    (fs : FS) (wl : Whitelist) (ps : String) (content : Option String)
    (hd : Handler) (rem : Bool)
    (hallowed : isPathAllowed resolve allowedDirs (parsePath ps) = true)
    (happ : ∀ s t, hd s t = Except.ok (true, rem)) :
    executeFileOperation parsePath resolve allowedDirs (some hd) fs wl
        (some "delete_directory") (some ps) content =
      Except.ok ⟨"Error: Unknown operation: " ++ "delete_directory", fs,
        (if rem then wl.add "file_operations"
          ("delete_directory" ++ ":" ++ renderPath (parentPath (parsePath ps))) else wl), true⟩
    ∧ ∀ (cb : Option Handler) (wl2 : Whitelist) (operation pathStr content2 : Option String),
        (∀ o, executeFileOperation parsePath resolve allowedDirs cb fs wl2
            operation pathStr content2 = Except.ok o → ∀ d ∈ fs.dirs, d ∈ o.fs.dirs)
        ∧ (∀ e fs2 wlx, executeFileOperation parsePath resolve allowedDirs cb fs wl2
            operation pathStr content2 = Except.error (e, fs2, wlx) → fs2 = fs) := by
  constructor
  · have hdes : pyStartsWith "delete_directory" "delete" = true := by decide
    simp [executeFileOperation, hallowed, hdes, requestConfirmation_forced, happ,
      Except.map, fileOpTryBlock]
  · intro cb wl2 operation pathStr content2
    exact executeFileOperation_dirs_mono parsePath resolve allowedDirs cb fs wl2
      operation pathStr content2

theorem C10_delete_directory_is_noop_witness :
    isPathAllowed id [["tmp"]] ((fun _ : String => ["tmp", "x"]) "/tmp/x") = true ∧
    (∀ s t, (fun _ _ => Except.ok (true, false) : Handler) s t = Except.ok (true, false)) ∧
    executeFileOperation (fun _ => ["tmp", "x"]) id [["tmp"]]
        (some (fun _ _ => Except.ok (true, false))) ⟨[], [["tmp"]]⟩ ⟨[]⟩
        (some "delete_directory") (some "/tmp/x") none =
      Except.ok ⟨"Error: Unknown operation: " ++ "delete_directory",
        ⟨[], [["tmp"]]⟩, ⟨[]⟩, true⟩ :=
  ⟨by decide, fun _ _ => rfl,
    (C10_delete_directory_is_noop (fun _ => ["tmp", "x"]) id [["tmp"]] ⟨[], [["tmp"]]⟩ ⟨[]⟩
      "/tmp/x" none (fun _ _ => Except.ok (true, false)) false (by decide)
      (fun _ _ => rfl)).1⟩
